import Mathlib

/-!
Verification of the expense store and reporting engine of the
Personal-Expense-Tracker repository (`src/personal_expense_tracker/modules.py`).

The store file is modelled as `Option (List String)`: `none` when the file does
not exist, otherwise the list of its newline-terminated lines (each list entry
is the text of one line, without the terminator).  Python floats are modelled
as rationals, Python's `json` line format by an executable printer/parser for
the record-object grammar the program emits, and `datetime.strptime`'s
`"%Y-%m-%d"` format by an executable date parser with the same digit-count and
calendar-validity rules.
-/

set_option maxRecDepth 10000

namespace ExpenseTracker

/-- One expense entry, the dictionary built by the source's add/update paths:
`category`, `item`, a numeric `amount` (Python float, modelled as `ℚ`) and the
stored `date` string. -/
structure Record where
  category : String
  item : String
  amount : ℚ
  date : String
deriving Repr, DecidableEq

/-! ### Character-level utilities (Python `str` methods over lists of chars) -/

def isDigitChar (c : Char) : Bool := '0' ≤ c && c ≤ '9'

def digitVal (c : Char) : Nat := c.toNat - '0'.toNat

def digitChar (d : Nat) : Char := Char.ofNat (48 + d)

/-- The whitespace set of Python's `str.strip()` (ASCII part). -/
def isPySpace (c : Char) : Bool :=
  c = ' ' || c = '\t' || c = '\n' || c = '\r' || c = '\x0b' || c = '\x0c'

def myTrim (cs : List Char) : List Char :=
  ((cs.dropWhile isPySpace).reverse.dropWhile isPySpace).reverse

def pyStrip (s : String) : String := String.mk (myTrim s.data)

def lowerChar (c : Char) : Char :=
  if 'A' ≤ c && c ≤ 'Z' then Char.ofNat (c.toNat + 32) else c

/-- Python `str.lower()` (ASCII behaviour, all the month names are ASCII). -/
def lowerStr (s : String) : String := String.mk (s.data.map lowerChar)

/-- `startsWithList p s` : the char list `p` is a prefix of `s`
(Python `s.startswith(p)`). -/
def startsWithList : List Char → List Char → Bool
  | [], _ => true
  | _ :: _, [] => false
  | p :: ps, c :: cs => p = c && startsWithList ps cs

/-- Value of a digit string, most significant digit first. -/
def digitsToNat (cs : List Char) : Nat := cs.foldl (fun a c => a * 10 + digitVal c) 0

/-- Split a char list at every occurrence of `sep` (Python `str.split(sep)`). -/
def splitOnChar (sep : Char) : List Char → List (List Char)
  | [] => [[]]
  | c :: cs =>
    let r := splitOnChar sep cs
    if c = sep then [] :: r
    else
      match r with
      | h :: t => (c :: h) :: t
      | [] => [[c]]

/-! ### Calendar dates and `strptime("%Y-%m-%d")` -/

def isLeap (y : Nat) : Bool := y % 4 = 0 && (y % 100 != 0 || y % 400 = 0)

def daysInMonth (y m : Nat) : Nat :=
  if m = 2 then (if isLeap y then 29 else 28)
  else if m = 4 || m = 6 || m = 9 || m = 11 then 30
  else 31

structure Date where
  year : Nat
  month : Nat
  day : Nat
deriving Repr, DecidableEq

/-- The `datetime` constructor's validity check (year `1..9999`). -/
def Date.validB (d : Date) : Bool :=
  1 ≤ d.year && d.year ≤ 9999 && 1 ≤ d.month && d.month ≤ 12 &&
  1 ≤ d.day && d.day ≤ daysInMonth d.year d.month

/-- `datetime.strptime(s, "%Y-%m-%d")`, as an `Option`: CPython's format
regexes are `%Y` = exactly four digits, `%m` and `%d` = one or two digits, the
match must cover the whole string, and the resulting numbers must form a valid
calendar date.  Returns `none` exactly when `strptime` raises `ValueError`. -/
def parseDateStr (s : String) : Option Date :=
  match splitOnChar '-' s.data with
  | [ys, ms, ds] =>
    if ys.length = 4 && ys.all isDigitChar &&
       1 ≤ ms.length && ms.length ≤ 2 && ms.all isDigitChar &&
       1 ≤ ds.length && ds.length ≤ 2 && ds.all isDigitChar then
      let d : Date := ⟨digitsToNat ys, digitsToNat ms, digitsToNat ds⟩
      if d.validB then some d else none
    else none
  | _ => none

/-- `_date_validation_helper` (modules.py:141-155): returns the same string if
it parses under `"%Y-%m-%d"`, otherwise a falsy value (modelled as `none`). -/
def _date_validation_helper (date : String) : Option String :=
  if (parseDateStr date).isSome then some date else none

/-! ### ISO-8601 week numbering (`datetime.isocalendar`) -/

def dayOfYear (d : Date) : Nat :=
  (List.range (d.month - 1)).foldl (fun a i => a + daysInMonth d.year (i + 1)) 0 + d.day

/-- Rata-die day number: 0001-01-01 (proleptic Gregorian) has number 1. -/
def rataDie (d : Date) : Nat :=
  365 * (d.year - 1) + (d.year - 1) / 4 - (d.year - 1) / 100 + (d.year - 1) / 400
    + dayOfYear d

/-- ISO weekday, Monday = 1 .. Sunday = 7. -/
def isoDow (d : Date) : Nat := (rataDie d - 1) % 7 + 1

/-- The raw ISO week formula `(doy - dow + 10) div 7` (0 means: belongs to the
previous ISO year, more than the year's week count means: week 1 of the next). -/
def rawISOWeek (d : Date) : Nat := (dayOfYear d + 10 - isoDow d) / 7

/-- Number of ISO weeks in year `y` = the raw week of Dec 28, which always lies
in the last week of its ISO year. -/
def isoWeeksInYear (y : Nat) : Nat := rawISOWeek ⟨y, 12, 28⟩

/-- `date.isocalendar()`'s `(year, week)` pair. -/
def isoYearWeek (d : Date) : Nat × Nat :=
  let w := rawISOWeek d
  if w = 0 then (d.year - 1, isoWeeksInYear (d.year - 1))
  else if isoWeeksInYear d.year < w then (d.year + 1, 1)
  else (d.year, w)

/-! ### The line format: `json.dumps` / `json.loads` for record objects

`json.dumps` on an add/update dictionary emits exactly
`{"category": <str>, "item": <str>, "amount": <float>, "date": <str>}` with
`", "` item separators, `": "` key separators, strings escaped with `\"` and
`\\`, and the float printed by `repr`.  The parser below accepts exactly that
grammar (surrounding whitespace allowed) and is the model of `json.loads` on a
line of the store file; any other line is a deserialization failure. -/

def lbrace : Char := Char.ofNat 123

def rbrace : Char := Char.ofNat 125

/-- Decimal digit characters of `n`, most significant first (`fuel ≥ n`). -/
def natDigitsAux : Nat → Nat → List Char
  | 0, n => [digitChar n]
  | fuel + 1, n => if n < 10 then [digitChar n] else natDigitsAux fuel (n / 10) ++ [digitChar (n % 10)]

def natDigitChars (n : Nat) : List Char := natDigitsAux n n

def natRepr (n : Nat) : String := String.mk (natDigitChars n)

/-- Digits after the decimal point of the fraction `r / d` (`0 ≤ r < d`):
long division, one digit per step. -/
def fracDigitChars : Nat → Nat → Nat → List Char
  | 0, _, _ => []
  | fuel + 1, r, d =>
    if r = 0 then []
    else digitChar (10 * r / d) :: fracDigitChars fuel (10 * r % d) d

/-- `repr` of a non-negative value `n / d` that is an exact decimal: integer
part, `'.'`, fractional digits (`"0"` when the value is integral). -/
def printAmountND (n d : Nat) : List Char :=
  natDigitChars (n / d) ++ '.' :: (if n % d = 0 then ['0'] else fracDigitChars 40 (n % d) d)

/-- `repr` of a Python float whose value is an exact decimal. -/
def printAmount (q : ℚ) : List Char :=
  if q.num < 0 then '-' :: printAmountND q.num.natAbs q.den
  else printAmountND q.num.natAbs q.den

def escChar (c : Char) : List Char := if c = '\"' || c = '\\' then ['\\', c] else [c]

def dumpJStr (s : String) : List Char := '\"' :: (s.data.flatMap escChar ++ ['\"'])

def jsonDumps (r : Record) : String :=
  String.mk (lbrace :: "\"category\": ".data ++ dumpJStr r.category
    ++ ", \"item\": ".data ++ dumpJStr r.item
    ++ ", \"amount\": ".data ++ printAmount r.amount
    ++ ", \"date\": ".data ++ dumpJStr r.date ++ [rbrace])

/-- Consume the exact literal `ps` from the front of `cs`. -/
def dropLit : List Char → List Char → Option (List Char)
  | [], cs => some cs
  | _ :: _, [] => none
  | p :: ps, c :: cs => if p = c then dropLit ps cs else none

/-- JSON string body: read until the closing quote, handling `\"` and `\\`. -/
def parseJStrAux : List Char → List Char → Option (String × List Char)
  | [], _ => none
  | c :: cs, acc =>
    if c = '\"' then some (String.mk acc.reverse, cs)
    else if c = '\\' then
      match cs with
      | [] => none
      | d :: cs' => if d = '\"' || d = '\\' then parseJStrAux cs' (d :: acc) else none
    else parseJStrAux cs (c :: acc)

def parseJStr : List Char → Option (String × List Char)
  | c :: cs => if c = '\"' then parseJStrAux cs [] else none
  | [] => none

/-- Unsigned decimal literal: integer digits, optional `.` and fraction
digits; result as a numerator/denominator pair (value `n / 10^k`). -/
def parseNumParts (cs : List Char) : Option ((Nat × Nat) × List Char) :=
  let ip := cs.takeWhile isDigitChar
  let rest := cs.dropWhile isDigitChar
  if ip.isEmpty then none
  else
    match rest with
    | '.' :: r2 =>
      let fp := r2.takeWhile isDigitChar
      let r3 := r2.dropWhile isDigitChar
      if fp.isEmpty then none
      else some ((digitsToNat ip * 10 ^ fp.length + digitsToNat fp, 10 ^ fp.length), r3)
    | _ => some ((digitsToNat ip, 1), rest)

/-- JSON number: optional sign, integer digits, optional `.` and fraction
digits. -/
def parseNum : List Char → Option (ℚ × List Char)
  | '-' :: r => (parseNumParts r).map (fun p => (mkRat (-(p.1.1 : Int)) p.1.2, p.2))
  | cs => (parseNumParts cs).map (fun p => (mkRat (p.1.1 : Int) p.1.2, p.2))

/-- `json.loads` on one line of the store file, restricted to the record-object
grammar the program writes (`none` = the line raises, killing the whole load). -/
def jsonLoads (line : String) : Option Record := do
  let cs := myTrim line.data
  let cs ← dropLit (lbrace :: "\"category\": ".data) cs
  let (cat, cs) ← parseJStr cs
  let cs ← dropLit ", \"item\": ".data cs
  let (it, cs) ← parseJStr cs
  let cs ← dropLit ", \"amount\": ".data cs
  let (amt, cs) ← parseNum cs
  let cs ← dropLit ", \"date\": ".data cs
  let (dt, cs) ← parseJStr cs
  let cs ← dropLit [rbrace] cs
  if cs.isEmpty then some ⟨cat, it, amt, dt⟩ else none

/-! ### The line store (`_file_saving_helper`, `_loading_data_helper`)

A store file is `Option (List String)`: `none` when the file does not exist,
otherwise its list of newline-terminated lines. -/

/-- Python's `line.strip()` is empty: the line is skipped by the load. -/
def isBlank (s : String) : Bool := (myTrim s.data).isEmpty

/-- The list comprehension `[json.loads(line) for line in f if line.strip()]`:
each surviving line deserialized independently, the first failure aborting the
whole load. -/
def mapOption {α β : Type} (f : α → Option β) : List α → Option (List β)
  | [] => some []
  | x :: xs =>
    match f x, mapOption f xs with
    | some y, some ys => some (y :: ys)
    | _, _ => none

/-- `_loading_data_helper` (modules.py:126-139): `[]` when the file does not
exist, otherwise parse every non-blank line; `none` models the uncaught
`json.JSONDecodeError` of a corrupt line. -/
def _loading_data_helper (file : Option (List String)) : Option (List Record) :=
  match file with
  | none => some []
  | some lines => mapOption jsonLoads (lines.filter (fun l => !isBlank l))

/-- Python list assignment `l[i] = x` with its negative-index wrap-around;
`none` models `IndexError` (which aborts before any write). -/
def pyListSet (l : List String) (i : Int) (x : String) : Option (List String) :=
  if 0 ≤ i then
    if i < l.length then some (l.set i.toNat x) else none
  else
    if -i ≤ l.length then some (l.set (l.length - (-i).toNat) x) else none

/-- `_file_saving_helper` (modules.py:98-124).  `lineNumber = none` appends one
serialized line (creating the file when absent); `some n` rewrites line `n`
(1-based) in place and writes every other line back unchanged.  The result is
the new file state; `none` models an uncaught exception before any write. -/
def _file_saving_helper (data : Record) (file : Option (List String))
    (lineNumber : Option Int) : Option (List String) :=
  match lineNumber with
  | none => some (file.getD [] ++ [jsonDumps data])
  | some n =>
    match file with
    | none => none
    | some lines => pyListSet lines (n - 1) (jsonDumps data)

/-! ### Amount parsing (Python `float(...)` and add's digit check) -/

/-- `s.replace(".", "", 1)`: drop the first `'.'` only. -/
def removeFirstDot : List Char → List Char
  | [] => []
  | c :: cs => if c = '.' then cs else c :: removeFirstDot cs

/-- add_expense's guard `amount_input.replace(".", "", 1).isdigit()`. -/
def pyAmountDigitCheck (cs : List Char) : Bool :=
  let t := removeFirstDot cs
  !t.isEmpty && t.all isDigitChar

/-- `float(s)` on a string that passed the digit check: digits with at most
one `'.'` (integer part before the first dot, fraction after it). -/
def parseUnsignedDecimal (cs : List Char) : ℚ :=
  match cs.dropWhile (fun c => c ≠ '.') with
  | _ :: fp =>
    mkRat (digitsToNat (cs.takeWhile (fun c => c ≠ '.')) * 10 ^ fp.length
      + digitsToNat fp : Nat) (10 ^ fp.length)
  | [] => mkRat (digitsToNat (cs.takeWhile (fun c => c ≠ '.')) : Nat) 1

/-- The amount computed by `add_expense` (modules.py:300):
`float(amount_input) if amount_input.replace(".", "", 1).isdigit() else 0.0`. -/
def pyAddAmount (cs : List Char) : ℚ :=
  if pyAmountDigitCheck cs then parseUnsignedDecimal cs else 0

/-- `float(s)` on an arbitrary string, as used by `update_expense`
(modules.py:375): strips whitespace, optional sign, decimal literal; `none`
models the uncaught `ValueError`.  (Exponent, `inf`/`nan` and underscore forms
are outside the model; on them the model fails where Python would succeed.) -/
def pyFloat (s : String) : Option ℚ :=
  let core : List Char → Option ℚ := fun cs =>
    match parseNumParts cs with
    | some (p, rest) => if rest.isEmpty then some (mkRat (p.1 : Int) p.2) else none
    | none => none
  match myTrim s.data with
  | '-' :: r =>
    (match parseNumParts r with
     | some (p, rest) => if rest.isEmpty then some (mkRat (-(p.1 : Int)) p.2) else none
     | none => none)
  | '+' :: r => core r
  | t => core t

/-! ### `add_expense` and `update_expense` -/

/-- One pass of `add_expense`'s input handling (modules.py:288-311): strip the
four inputs, default the amount text to `"0"`, reject when category or item is
empty (the loop `continue`s without writing), soft-default the amount to `0.0`
and an unparseable date to today's date.  Returns the dictionary that is passed
to `_file_saving_helper`, or `none` when the pass writes nothing. -/
def add_expense_record (category item amountText dateText todayStr : String) :
    Option Record :=
  let cat := pyStrip category
  let it := pyStrip item
  let amtS := if (myTrim amountText.data).isEmpty then "0".data else myTrim amountText.data
  let dtS := pyStrip dateText
  if cat = "" || it = "" then none
  else some
    { category := cat
      item := it
      amount := pyAddAmount amtS
      date := (_date_validation_helper dtS).getD todayStr }

/-- One pass of `add_expense` at the store level: append the built record as a
new final line, or leave the file untouched when the pass rejects. -/
def add_expense (file : Option (List String))
    (category item amountText dateText todayStr : String) : Option (List String) :=
  match add_expense_record category item amountText dateText todayStr with
  | none => file
  | some r => _file_saving_helper r file none

/-- The four raw interactive answers of one `update_expense` pass (an empty
string means the user left the field blank to keep the current value). -/
structure UpdateInput where
  category : String
  item : String
  amount : String
  date : String
deriving Repr, DecidableEq

/-- The updated dictionary built by `update_expense` (modules.py:367-377):
blank keeps the old value, the amount text goes through `float` (`none` models
the uncaught `ValueError`, which aborts before any write), an unparseable date
text falls back to the record's existing date. -/
def mergeUpdate (old : Record) (inp : UpdateInput) : Option Record :=
  let cat := if inp.category = "" then old.category else inp.category
  let it := if inp.item = "" then old.item else inp.item
  let dtText := if inp.date = "" then old.date else inp.date
  let amt? := if inp.amount = "" then some old.amount else pyFloat inp.amount
  amt?.map fun amt =>
    { category := cat
      item := it
      amount := amt
      date := (_date_validation_helper dtText).getD old.date }

/-- One pass of `update_expense` (modules.py:351-378) at the store level:
re-load the store, reject an index outside `[1, record count]` before touching
the file, otherwise rewrite exactly line `idx`.  The result is the file state
after the pass; every aborted path leaves it unchanged. -/
def update_expense (file : Option (List String)) (idx : Int) (inp : UpdateInput) :
    Option (List String) :=
  match _loading_data_helper file with
  | none => file
  | some expenses =>
    if idx < 1 ∨ (expenses.length : Int) < idx then file
    else
      match mergeUpdate (expenses.getD ((idx - 1).toNat) ⟨"", "", 0, ""⟩) inp with
      | none => file
      | some r =>
        match _file_saving_helper r file (some idx) with
        | none => file
        | some newLines => some newLines

/-! ### Totals, ordinals, month normalization -/

/-- `_total_return_helper` (modules.py:168-179): `(len(items), sum of the
amounts)`; Python's `sum` is a left fold starting at `0`. -/
def _total_return_helper (items : List Record) : Nat × ℚ :=
  (items.length, items.foldl (fun acc x => acc + x.amount) 0)

/-- `_ordinal_helper` (modules.py:181-195). -/
def _ordinal_helper (n : Nat) : String :=
  if 10 ≤ n % 100 && n % 100 ≤ 20 then natRepr n ++ "th"
  else
    natRepr n ++
      (if n % 10 = 1 then "st" else if n % 10 = 2 then "nd"
       else if n % 10 = 3 then "rd" else "th")

/-- `calendar.month_name`: an empty placeholder at index 0, then the English
month names. -/
def pyMonthNames : List String :=
  ["", "January", "February", "March", "April", "May", "June", "July",
   "August", "September", "October", "November", "December"]

def monthName (m : Nat) : String := pyMonthNames.getD m ""

/-- The `for i, name in enumerate(month_name)` scan of
`_month_normalizer_helper`: first index whose non-empty name satisfies
`name.lower().startswith(month_str)`. -/
def scanMonths (monthStr : String) : Nat → List String → Option Nat
  | _, [] => none
  | i, n :: rest =>
    if !n.isEmpty && startsWithList monthStr.data (lowerStr n).data then some i
    else scanMonths monthStr (i + 1) rest

/-- `_month_normalizer_helper` (modules.py:204-213): an `int` is returned
directly (with no range check); a string is matched case-insensitively by
"month name starts with the text", first match in calendar order; `none`
models the raised `ValueError`. -/
def _month_normalizer_helper : Int ⊕ String → Option Int
  | .inl m => some m
  | .inr s => (scanMonths (lowerStr s) 0 pyMonthNames).map Int.ofNat

/-! ### Sorting and report generators -/

/-- The parsed date of a record (the generators re-parse every stored date and
raise on failure; the generators below check validity up front, so the default
is never the value actually used). -/
def dateOf (e : Record) : Date := (parseDateStr e.date).getD ⟨1, 1, 1⟩

/-- Sort key: dates compare lexicographically on (year, month, day). -/
def dateKey (e : Record) : Nat :=
  (dateOf e).year * 10000 + (dateOf e).month * 100 + (dateOf e).day

/-- `sorted(..., reverse=True)`'s order: later dates first. -/
def dateDesc (a b : Record) : Prop := dateKey b ≤ dateKey a

instance : DecidableRel dateDesc := fun _ _ => Nat.decLe _ _

/-- `_date_based_sorting_helper` (modules.py:197-202), on an already loaded
record list: stable sort by parsed date, descending (Python's `sorted` is a
stable sort; a stable sort's output is unique, so insertion sort realizes it). -/
def _date_based_sorting_helper (records : List Record) : List Record :=
  List.insertionSort dateDesc records

def allDatesValid (recs : List Record) : Bool :=
  recs.all (fun e => (parseDateStr e.date).isSome)

/-- `_weekly_report_generator` (modules.py:219-233): load, sort descending,
keep records with `dt.year == year and dt.isocalendar().week == week`.  `none`
models the `ValueError` raised when any stored date fails to re-parse. -/
def _weekly_report_generator (year week : Int) (file : Option (List String)) :
    Option (List Record) := do
  let recs ← _loading_data_helper file
  if allDatesValid recs then
    some ((_date_based_sorting_helper recs).filter fun e =>
      decide (((dateOf e).year : Int) = year) &&
      decide ((((isoYearWeek (dateOf e)).2 : Nat) : Int) = week))
  else none

abbrev MKey := Nat × Nat × String

/-- `monthly_report[(dt.year, dt.month, dt.strftime('%B'))].append(e)`. -/
def monthKeyOf (d : Date) : MKey := (d.year, d.month, monthName d.month)

/-- `defaultdict(list)` grouping with dict insertion order: append to the
existing bucket, or add a new key at the end. -/
def bucketAdd (m : List (MKey × List Record)) (k : MKey) (e : Record) :
    List (MKey × List Record) :=
  match m with
  | [] => [(k, [e])]
  | (k', es) :: rest =>
    if k' = k then (k', es ++ [e]) :: rest else (k', es) :: bucketAdd rest k e

def buildMonthly (recs : List Record) : List (MKey × List Record) :=
  recs.foldl (fun m e => bucketAdd m (monthKeyOf (dateOf e)) e) []

/-- `defaultdict` access `monthly_report[key]` for an existing key (and `[]`
for a missing one — exactly what `monthly_report[None]` yields). -/
def lookupB (m : List (MKey × List Record)) (k : MKey) : List Record :=
  match m.find? (fun p => decide (p.1 = k)) with
  | some p => p.2
  | none => []

/-- The key test of `next(k for k in monthly_report if k[0] == year and
k[1] == month)`. -/
def monthCond (year mo : Int) (k : MKey) : Bool :=
  decide ((k.1 : Int) = year) && decide ((k.2.1 : Int) = mo)

/-- `_monthly_report_generator` (modules.py:235-255): load, sort, group by
`(year, month, month name)`, normalize the requested month, return the first
key with matching year and month together with its bucket — or `(none, [])`
(Python's `(None, monthly_report[None])`, the empty default) when no key
matches.  `none` overall models a raised `ValueError` (bad stored date or
unmatchable month text). -/
def _monthly_report_generator (year : Int) (month : Int ⊕ String)
    (file : Option (List String)) : Option (Option MKey × List Record) := do
  let recs ← _loading_data_helper file
  if allDatesValid recs then
    let buckets := buildMonthly (_date_based_sorting_helper recs)
    let mo ← _month_normalizer_helper month
    let key := (buckets.map Prod.fst).find? (monthCond year mo)
    some (key,
      match key with
      | some k => lookupB buckets k
      | none => [])
  else none

/-! ### Helper lemmas -/

theorem foldl_add_amount (l : List Record) (a : ℚ) :
    l.foldl (fun acc x => acc + x.amount) a = a + (l.map Record.amount).sum := by
  induction l generalizing a with
  | nil => simp
  | cons x xs ih => simp [ih, add_assoc]

/-- The suffix rule exactly as the specification words it: `"st"`, `"nd"`,
`"rd"` for last digit 1, 2, 3, `"th"` otherwise, overridden to `"th"` whenever
`n % 100` lies in `[10, 20]`. -/
def claimOrdinalSuffix (n : Nat) : String :=
  if 10 ≤ n % 100 ∧ n % 100 ≤ 20 then "th"
  else if n % 10 = 1 then "st"
  else if n % 10 = 2 then "nd"
  else if n % 10 = 3 then "rd"
  else "th"

/-! ### C7 -/

/-- C7: `_total_return_helper` on the empty sequence is `(0, 0.0)`, and on any
finite record sequence it returns exactly the pair (length, sum of the amount
fields). -/
theorem totals_count_and_sum :
    _total_return_helper [] = (0, (0 : ℚ)) ∧
    ∀ items : List Record,
      _total_return_helper items = (items.length, (items.map Record.amount).sum) := by
  refine ⟨rfl, fun items => ?_⟩
  unfold _total_return_helper
  rw [foldl_add_amount, zero_add]

/-! ### C8 -/

/-- C8: for every positive `n`, `_ordinal_helper` renders `n` followed by the
suffix the specification describes (`st`/`nd`/`rd` for last digit 1/2/3, `th`
otherwise, with the `[10,20]`-mod-100 override), and the five quoted examples
hold. -/
theorem ordinal_matches_spec :
    (∀ n : Nat, 0 < n → _ordinal_helper n = natRepr n ++ claimOrdinalSuffix n) ∧
    _ordinal_helper 1 = "1st" ∧ _ordinal_helper 11 = "11th" ∧
    _ordinal_helper 12 = "12th" ∧ _ordinal_helper 21 = "21st" ∧
    _ordinal_helper 111 = "111th" := by
  refine ⟨fun n _ => ?_, by decide, by decide, by decide, by decide, by decide⟩
  unfold _ordinal_helper claimOrdinalSuffix
  by_cases h : 10 ≤ n % 100 ∧ n % 100 ≤ 20
  · simp [h.1, h.2]
  · have hb : (decide (10 ≤ n % 100) && decide (n % 100 ≤ 20)) = false := by
      rcases Decidable.not_and_iff_or_not.mp h with h1 | h1 <;> simp [h1]
    rw [if_neg h, hb]
    simp

/-- Witness for C8 at `n = 21`. -/
theorem ordinal_matches_spec_witness :
    _ordinal_helper 21 = natRepr 21 ++ claimOrdinalSuffix 21 :=
  ordinal_matches_spec.1 21 (by decide)

/-! ### C3 -/

/-- C3: for a store with `N` records, invoking the update operation with an
index outside `[1, N]` (including 0 and negatives) leaves the store file
exactly as it was. -/
theorem update_out_of_range_no_write (file : Option (List String)) (idx : Int)
    (inp : UpdateInput) (recs : List Record)
    (hload : _loading_data_helper file = some recs)
    (hout : idx < 1 ∨ (recs.length : Int) < idx) :
    update_expense file idx inp = file := by
  unfold update_expense
  rw [hload]
  exact if_pos hout

/-- Witness for C3: index 5 on a one-record store, and index 0 and -1 likewise. -/
theorem update_out_of_range_no_write_witness :
    update_expense (some [jsonDumps ⟨"Food", "tea", 5, "2020-01-01"⟩]) 5
      ⟨"", "", "", ""⟩ = some [jsonDumps ⟨"Food", "tea", 5, "2020-01-01"⟩] ∧
    update_expense (some [jsonDumps ⟨"Food", "tea", 5, "2020-01-01"⟩]) 0
      ⟨"", "", "", ""⟩ = some [jsonDumps ⟨"Food", "tea", 5, "2020-01-01"⟩] ∧
    update_expense (some [jsonDumps ⟨"Food", "tea", 5, "2020-01-01"⟩]) (-1)
      ⟨"", "", "", ""⟩ = some [jsonDumps ⟨"Food", "tea", 5, "2020-01-01"⟩] :=
  ⟨update_out_of_range_no_write _ 5 _ [⟨"Food", "tea", 5, "2020-01-01"⟩]
      (by decide) (by decide),
   update_out_of_range_no_write _ 0 _ [⟨"Food", "tea", 5, "2020-01-01"⟩]
      (by decide) (by decide),
   update_out_of_range_no_write _ (-1) _ [⟨"Food", "tea", 5, "2020-01-01"⟩]
      (by decide) (by decide)⟩

/-! ### C4 -/

theorem mapOption_isSome_iff {α β : Type} (f : α → Option β) (l : List α) :
    (mapOption f l).isSome = true ↔ ∀ x ∈ l, (f x).isSome = true := by
  induction l with
  | nil => simp [mapOption]
  | cons x xs ih =>
    unfold mapOption
    cases hf : f x <;> cases hm : mapOption f xs <;> simp_all

theorem mapOption_length {α β : Type} (f : α → Option β) :
    ∀ (l : List α) (r : List β), mapOption f l = some r → r.length = l.length := by
  intro l
  induction l with
  | nil => intro r h; simp [mapOption] at h; simp [← h]
  | cons x xs ih =>
    intro r h
    unfold mapOption at h
    cases hf : f x <;> rw [hf] at h
    · exact absurd h (by simp)
    · cases hm : mapOption f xs <;> rw [hm] at h
      · exact absurd h (by simp)
      · cases h
        simp [ih _ hm]

theorem mapOption_getElem? {α β : Type} (f : α → Option β) :
    ∀ (l : List α) (r : List β), mapOption f l = some r →
      ∀ i : Nat, r[i]? = (l[i]?).bind f := by
  intro l
  induction l with
  | nil => intro r h i; simp [mapOption] at h; simp [h]
  | cons x xs ih =>
    intro r h i
    unfold mapOption at h
    cases hf : f x <;> rw [hf] at h
    · exact absurd h (by simp)
    · cases hm : mapOption f xs <;> rw [hm] at h
      · exact absurd h (by simp)
      · cases h
        cases i with
        | zero => simp [hf]
        | succ j => simpa using ih _ hm j

/-- C4: the load returns the empty sequence when the file is absent; otherwise
it skips exactly the blank lines, deserializes each remaining line
independently (position `i` of the result is `json.loads` of the `i`-th
non-blank line), and fails as a whole — returning no record from any line —
exactly when some non-blank line fails to deserialize. -/
theorem load_all_spec :
    _loading_data_helper none = some [] ∧
    ∀ lines : List String,
      (_loading_data_helper (some lines) = none ↔
        ∃ l ∈ lines, isBlank l = false ∧ jsonLoads l = none) ∧
      (∀ recs, _loading_data_helper (some lines) = some recs →
        recs.length = (lines.filter (fun l => !isBlank l)).length ∧
        ∀ i : Nat, recs[i]? = ((lines.filter (fun l => !isBlank l))[i]?).bind jsonLoads) := by
  refine ⟨rfl, fun lines => ⟨?_, fun recs h => ⟨mapOption_length _ _ _ h, mapOption_getElem? _ _ _ h⟩⟩⟩
  unfold _loading_data_helper
  rw [← Option.not_isSome_iff_eq_none, mapOption_isSome_iff]
  constructor
  · intro h
    push_neg at h
    obtain ⟨x, hx, hfail⟩ := h
    rw [List.mem_filter] at hx
    exact ⟨x, hx.1, by simpa using hx.2, Option.not_isSome_iff_eq_none.mp hfail⟩
  · intro ⟨x, hx, hnb, hfail⟩ hall
    have := hall x (List.mem_filter.mpr ⟨hx, by simp [hnb]⟩)
    rw [hfail] at this
    simp at this

/-- Witness for C4: a store whose second line is corrupt loads as a whole to
a failure, even though the first line is a valid record. -/
theorem load_all_spec_witness :
    _loading_data_helper (some [jsonDumps ⟨"Food", "tea", 5, "2020-01-01"⟩, "", "junk"]) = none :=
  ((load_all_spec.2 [jsonDumps ⟨"Food", "tea", 5, "2020-01-01"⟩, "", "junk"]).1).mpr
    ⟨"junk", by decide, by decide, by decide⟩

/-! ### C9 -/

/-- The per-name test of the `_month_normalizer_helper` scan (`month_str`
already lowercased, as at the call site). -/
def monthScanPred (ms : String) (n : String) : Bool :=
  !n.isEmpty && startsWithList ms.data (lowerStr n).data

theorem scanMonths_eq_none (ms : String) :
    ∀ (names : List String) (i : Nat),
      scanMonths ms i names = none ↔ ∀ n ∈ names, monthScanPred ms n = false := by
  intro names
  induction names with
  | nil => simp [scanMonths]
  | cons n rest ih =>
    intro i
    unfold scanMonths
    by_cases hp : (!n.isEmpty && startsWithList ms.data (lowerStr n).data) = true
    · rw [if_pos hp]
      constructor
      · intro h
        exact absurd h (by simp)
      · intro h
        have hc := h n (by simp)
        unfold monthScanPred at hc
        simp [hp] at hc
    · rw [if_neg hp]
      rw [ih (i + 1)]
      constructor
      · intro h n' hn'
        rcases List.mem_cons.mp hn' with rfl | hmem
        · unfold monthScanPred
          simpa using hp
        · exact h n' hmem
      · intro h n' hn'
        exact h n' (List.mem_cons_of_mem _ hn')

theorem scanMonths_some_spec (ms : String) :
    ∀ (names : List String) (i j : Nat), scanMonths ms i names = some j →
      i ≤ j ∧ j - i < names.length ∧
      monthScanPred ms (names.getD (j - i) "") = true ∧
      ∀ k : Nat, k < j - i → monthScanPred ms (names.getD k "") = false := by
  intro names
  induction names with
  | nil => intro i j h; simp [scanMonths] at h
  | cons n rest ih =>
    intro i j h
    unfold scanMonths at h
    by_cases hp : (!n.isEmpty && startsWithList ms.data (lowerStr n).data) = true
    · rw [if_pos hp] at h
      cases h
      refine ⟨le_refl _, by simp, ?_, ?_⟩
      · simpa [monthScanPred] using hp
      · intro k hk; omega
    · rw [if_neg hp] at h
      obtain ⟨hle, hlt, hget, hbefore⟩ := ih (i + 1) j h
      have hji : j - i = (j - (i + 1)) + 1 := by omega
      refine ⟨by omega, by simp; omega, ?_, ?_⟩
      · rw [hji]; simpa using hget
      · intro k hk
        cases k with
        | zero => simpa [monthScanPred] using hp
        | succ m =>
          have : m < j - (i + 1) := by omega
          simpa using hbefore m this

/-- `monthMatches s k`: the lowercased input `s` is a prefix of the lowercased
name of month `k`. -/
def monthMatches (s : String) (k : Nat) : Prop :=
  startsWithList (lowerStr s).data (lowerStr (monthName k)).data = true

/-- C9 (amended): a string input resolves, case-insensitively, to the first
month in calendar order whose name starts with the text — necessarily in
`1..12` — and fails exactly when no month name starts with the text; the three
quoted examples hold; but an integer input is returned unchanged with no range
check (not restricted to `1..12`). -/
theorem month_normalizer_spec :
    (∀ m : Int, _month_normalizer_helper (.inl m) = some m) ∧
    (∀ s : String,
      (_month_normalizer_helper (.inr s) = none ↔
        ∀ n ∈ pyMonthNames, n ≠ "" →
          startsWithList (lowerStr s).data (lowerStr n).data = false) ∧
      (∀ v : Int, _month_normalizer_helper (.inr s) = some v →
        ∃ j : Nat, v = (j : Int) ∧ 1 ≤ j ∧ j ≤ 12 ∧ monthMatches s j ∧
          ∀ k : Nat, 1 ≤ k → k < j → ¬ monthMatches s k)) ∧
    _month_normalizer_helper (.inr "January") = some 1 ∧
    _month_normalizer_helper (.inr "jan") = some 1 ∧
    _month_normalizer_helper (.inl 1) = some 1 := by
  refine ⟨fun m => rfl, fun s => ⟨?_, ?_⟩, by decide, by decide, by decide⟩
  · show Option.map Int.ofNat (scanMonths (lowerStr s) 0 pyMonthNames) = none ↔ _
    rw [Option.map_eq_none', scanMonths_eq_none]
    constructor
    · intro h n hn hne
      have hp := h n hn
      unfold monthScanPred at hp
      have hie : n.isEmpty = false := by
        rw [Bool.eq_false_iff]
        intro ht
        exact hne ((String.isEmpty_iff _).mp ht)
      simpa [hie] using hp
    · intro h n hn
      unfold monthScanPred
      by_cases hne : n = ""
      · rw [hne]
        have he : ("" : String).isEmpty = true := rfl
        rw [he]
        simp
      · have hie : n.isEmpty = false := by
          rw [Bool.eq_false_iff]
          intro ht
          exact hne ((String.isEmpty_iff _).mp ht)
        simp [hie, h n hn hne]
  · intro v hv
    have hv : Option.map Int.ofNat (scanMonths (lowerStr s) 0 pyMonthNames) = some v := hv
    rw [Option.map_eq_some'] at hv
    obtain ⟨j, hscan, rfl⟩ := hv
    obtain ⟨-, hlt, hget, hbefore⟩ := scanMonths_some_spec _ _ 0 j hscan
    simp only [Nat.sub_zero] at hlt hget hbefore
    have hlen : pyMonthNames.length = 13 := by decide
    have hj0 : j ≠ 0 := by
      intro h0
      rw [h0] at hget
      have hg0 : pyMonthNames.getD 0 "" = "" := rfl
      rw [hg0] at hget
      unfold monthScanPred at hget
      have he : ("" : String).isEmpty = true := rfl
      rw [he] at hget
      simp at hget
    refine ⟨j, rfl, by omega, by omega, ?_, ?_⟩
    · unfold monthMatches
      unfold monthScanPred at hget
      rw [Bool.and_eq_true] at hget
      exact hget.2
    · intro k hk1 hkj hmk
      have hpred := hbefore k hkj
      unfold monthScanPred at hpred
      have hne : pyMonthNames.getD k "" ≠ "" := by
        have hk12 : k < 13 := by omega
        interval_cases k <;> decide
      have hie : (pyMonthNames.getD k "").isEmpty = false := by
        rw [Bool.eq_false_iff]
        intro ht
        exact hne ((String.isEmpty_iff _).mp ht)
      rw [hie, Bool.not_false, Bool.true_and] at hpred
      unfold monthMatches at hmk
      have hpred' : startsWithList (lowerStr s).data (lowerStr (monthName k)).data = false := hpred
      rw [hpred'] at hmk
      exact absurd hmk (by simp)

/-- Witness for C9 at `s = "jan"`, resolving to January. -/
theorem month_normalizer_spec_witness :
    ∃ j : Nat, (1 : Int) = (j : Int) ∧ 1 ≤ j ∧ j ≤ 12 ∧ monthMatches "jan" j ∧
      ∀ k : Nat, 1 ≤ k → k < j → ¬ monthMatches "jan" k :=
  (month_normalizer_spec.2.1 "jan").2 1 (by decide)

/-- Counterexample to C9 as stated: the integer input 13 is returned directly
even though it is not a month number in `1..12` and the call does not fail. -/
theorem month_normalizer_int_out_of_range :
    _month_normalizer_helper (.inl 13) = some 13 ∧ ¬ ((13 : Int) ≤ 12) := by
  exact ⟨rfl, by decide⟩

/-! ### C1 -/

instance : IsTotal Record dateDesc :=
  ⟨fun a b => le_total (dateKey b) (dateKey a)⟩

instance : IsTrans Record dateDesc :=
  ⟨fun _ _ _ h1 h2 => le_trans h2 h1⟩

/-- The predicate `_weekly_report_generator` filters with: calendar year and
ISO week of the stored date. -/
def weeklyPred (year week : Int) (e : Record) : Bool :=
  decide (((dateOf e).year : Int) = year) &&
  decide ((((isoYearWeek (dateOf e)).2 : Nat) : Int) = week)

/-- C1 (amended): for every year `y`, week `w` and store whose records all
carry valid dates, the weekly report succeeds and returns exactly those loaded
records whose date's CALENDAR year equals `y` and whose ISO-8601 week number
equals `w` (the code compares `dt.year`, not the ISO year), presented in
date-descending order. -/
theorem weekly_report_calendar_year_filter (y w : Int) (file : Option (List String))
    (recs : List Record)
    (hload : _loading_data_helper file = some recs)
    (hvalid : allDatesValid recs = true) :
    ∃ l, _weekly_report_generator y w file = some l ∧
      l.Perm (recs.filter (weeklyPred y w)) ∧
      l.Pairwise dateDesc := by
  refine ⟨(_date_based_sorting_helper recs).filter (weeklyPred y w), ?_, ?_, ?_⟩
  · unfold _weekly_report_generator
    rw [hload]
    simp only [Option.bind_eq_bind, Option.some_bind, hvalid, if_pos]
    rfl
  · exact List.Perm.filter _ (List.perm_insertionSort dateDesc recs)
  · exact List.Pairwise.sublist (List.filter_sublist _)
      (List.sorted_insertionSort dateDesc recs)

/-- Witness for C1 on a two-record store queried for ISO week 1 of 2024. -/
theorem weekly_report_calendar_year_filter_witness :
    ∃ l, _weekly_report_generator 2024 1
        (some [jsonDumps ⟨"A", "a", 20, "2024-01-05"⟩,
               jsonDumps ⟨"C", "c", 10, "2024-02-01"⟩]) = some l ∧
      l.Perm ([⟨"A", "a", 20, "2024-01-05"⟩, ⟨"C", "c", 10, "2024-02-01"⟩].filter
        (weeklyPred 2024 1)) ∧
      l.Pairwise dateDesc :=
  weekly_report_calendar_year_filter 2024 1 _
    [⟨"A", "a", 20, "2024-01-05"⟩, ⟨"C", "c", 10, "2024-02-01"⟩]
    (by decide) (by decide)

/-- Counterexample to C1 as stated: 2024-12-30 belongs to ISO year 2025
(week 1), yet `_weekly_report_generator 2024 1` RETURNS that record — the code
filters on the calendar year, so a record whose ISO year differs from the
queried year is not excluded — and the ISO-year query `2025, 1` that the claim
says should return it yields nothing. -/
theorem weekly_report_iso_year_cex :
    _weekly_report_generator 2024 1 (some [jsonDumps ⟨"Misc", "x", 5, "2024-12-30"⟩]) =
      some [⟨"Misc", "x", 5, "2024-12-30"⟩] ∧
    (isoYearWeek (dateOf ⟨"Misc", "x", 5, "2024-12-30"⟩)).1 = 2025 ∧
    (isoYearWeek (dateOf ⟨"Misc", "x", 5, "2024-12-30"⟩)).2 = 1 ∧
    _weekly_report_generator 2025 1 (some [jsonDumps ⟨"Misc", "x", 5, "2024-12-30"⟩]) =
      some [] := by
  refine ⟨by decide, by decide, by decide, by decide⟩

/-! ### C2 -/

theorem mapOption_set {α β : Type} (f : α → Option β) :
    ∀ (l : List α) (r : List β) (k : Nat) (v : α) (w : β),
      mapOption f l = some r → f v = some w →
      mapOption f (l.set k v) = some (r.set k w) := by
  intro l
  induction l with
  | nil =>
    intro r k v w h _
    simp [mapOption] at h
    subst h
    simp [mapOption]
  | cons x xs ih =>
    intro r k v w h hv
    unfold mapOption at h
    cases hf : f x <;> rw [hf] at h
    · exact absurd h (by simp)
    · cases hm : mapOption f xs <;> rw [hm] at h
      · exact absurd h (by simp)
      · rename_i y ys
        cases h
        cases k with
        | zero =>
          show mapOption f (v :: xs) = some (w :: ys)
          unfold mapOption
          rw [hv, hm]
        | succ k' =>
          show mapOption f (x :: xs.set k' v) = some (y :: ys.set k' w)
          unfold mapOption
          rw [hf, ih ys k' v w hm hv]

theorem myTrim_cons_ne_nil (c : Char) (cs : List Char) (hc : isPySpace c = false) :
    myTrim (c :: cs) ≠ [] := by
  unfold myTrim
  rw [List.dropWhile_cons, hc]
  simp only [Bool.false_eq_true, if_false]
  intro hemp
  rw [List.reverse_eq_nil_iff, List.dropWhile_eq_nil_iff] at hemp
  have hcmem := hemp c (List.mem_reverse.mpr (by simp))
  rw [hc] at hcmem
  exact absurd hcmem (by simp)

/-- A serialized record line is never blank (it starts with a brace). -/
theorem isBlank_jsonDumps (r : Record) : isBlank (jsonDumps r) = false := by
  unfold isBlank
  rw [Bool.eq_false_iff]
  intro hemp
  rw [List.isEmpty_iff] at hemp
  exact myTrim_cons_ne_nil lbrace _ (by decide) hemp

/-- C2: on a store file of `N` non-blank record lines (no blank lines, every
line deserializable), rewriting position `i` (`1 ≤ i ≤ N`) with a record `r`
whose serialization round-trips changes only that line: the file keeps its
length, line `i` holds exactly the serialization of `r`, every other line is
byte-for-byte unchanged, and a fresh full load succeeds with the same length
`N`, record `r` at position `i` and the previous record at every other
position. -/
theorem update_at_frame (lines : List String) (recs : List Record) (i : Nat) (r : Record)
    (hload : _loading_data_helper (some lines) = some recs)
    (hnb : ∀ l ∈ lines, isBlank l = false)
    (h1 : 1 ≤ i) (h2 : i ≤ lines.length)
    (hrt : jsonLoads (jsonDumps r) = some r) :
    _file_saving_helper r (some lines) (some (i : Int)) =
      some (lines.set (i - 1) (jsonDumps r)) ∧
    (lines.set (i - 1) (jsonDumps r)).length = lines.length ∧
    (lines.set (i - 1) (jsonDumps r))[i - 1]? = some (jsonDumps r) ∧
    (∀ j : Nat, j ≠ i - 1 → (lines.set (i - 1) (jsonDumps r))[j]? = lines[j]?) ∧
    ∃ recs', _loading_data_helper (some (lines.set (i - 1) (jsonDumps r))) = some recs' ∧
      recs'.length = recs.length ∧ recs.length = lines.length ∧
      recs'[i - 1]? = some r ∧
      ∀ j : Nat, j ≠ i - 1 → recs'[j]? = recs[j]? := by
  have hfilter : lines.filter (fun l => !isBlank l) = lines :=
    List.filter_eq_self.mpr (fun a ha => by simp [hnb a ha])
  have hmap : mapOption jsonLoads lines = some recs := by
    have h' : mapOption jsonLoads (lines.filter (fun l => !isBlank l)) = some recs := hload
    rwa [hfilter] at h'
  have hlen : recs.length = lines.length := mapOption_length _ _ _ hmap
  have hnb' : ∀ l ∈ lines.set (i - 1) (jsonDumps r), isBlank l = false := by
    intro l hl
    rcases List.mem_or_eq_of_mem_set hl with hmem | rfl
    · exact hnb l hmem
    · exact isBlank_jsonDumps r
  have hfilter' : (lines.set (i - 1) (jsonDumps r)).filter (fun l => !isBlank l) =
      lines.set (i - 1) (jsonDumps r) :=
    List.filter_eq_self.mpr (fun a ha => by simp [hnb' a ha])
  have hmap' : mapOption jsonLoads (lines.set (i - 1) (jsonDumps r)) =
      some (recs.set (i - 1) r) :=
    mapOption_set _ _ _ _ _ _ hmap hrt
  refine ⟨?_, by simp, ?_, ?_, recs.set (i - 1) r, ?_, by simp [hlen], hlen, ?_, ?_⟩
  · have h0 : (0 : Int) ≤ (i : Int) - 1 := by omega
    have hlt : (i : Int) - 1 < (lines.length : Int) := by omega
    have hts : ((i : Int) - 1).toNat = i - 1 := by omega
    simp only [_file_saving_helper, pyListSet, if_pos h0, if_pos hlt, hts]
  · exact List.getElem?_set_self (by omega)
  · intro j hj
    exact List.getElem?_set_ne (by omega)
  · show mapOption jsonLoads ((lines.set (i - 1) (jsonDumps r)).filter (fun l => !isBlank l)) =
      some (recs.set (i - 1) r)
    rw [hfilter']
    exact hmap'
  · exact List.getElem?_set_self (by omega)
  · intro j hj
    exact List.getElem?_set_ne (by omega)

/-- Witness for C2: rewriting position 2 of a three-line store. -/
theorem update_at_frame_witness :
    _file_saving_helper ⟨"New", "n", 7, "2024-06-01"⟩
        (some [jsonDumps ⟨"A", "a", 20, "2024-01-05"⟩,
               jsonDumps ⟨"B", "b", 30, "2024-01-20"⟩,
               jsonDumps ⟨"C", "c", 10, "2024-02-01"⟩]) (some (2 : Int)) =
      some ([jsonDumps ⟨"A", "a", 20, "2024-01-05"⟩,
             jsonDumps ⟨"B", "b", 30, "2024-01-20"⟩,
             jsonDumps ⟨"C", "c", 10, "2024-02-01"⟩].set 1
              (jsonDumps ⟨"New", "n", 7, "2024-06-01"⟩)) ∧
    ∃ recs', _loading_data_helper
        (some ([jsonDumps ⟨"A", "a", 20, "2024-01-05"⟩,
                jsonDumps ⟨"B", "b", 30, "2024-01-20"⟩,
                jsonDumps ⟨"C", "c", 10, "2024-02-01"⟩].set 1
                 (jsonDumps ⟨"New", "n", 7, "2024-06-01"⟩))) = some recs' ∧
      recs'.length = 3 := by
  have h := update_at_frame
    [jsonDumps ⟨"A", "a", 20, "2024-01-05"⟩,
     jsonDumps ⟨"B", "b", 30, "2024-01-20"⟩,
     jsonDumps ⟨"C", "c", 10, "2024-02-01"⟩]
    [⟨"A", "a", 20, "2024-01-05"⟩, ⟨"B", "b", 30, "2024-01-20"⟩,
     ⟨"C", "c", 10, "2024-02-01"⟩]
    2 ⟨"New", "n", 7, "2024-06-01"⟩
    (by decide) (by decide) (by decide) (by decide) (by decide)
  obtain ⟨hsave, -, -, -, recs', hload', hlen', -, -⟩ := h
  exact ⟨hsave, recs', hload', by rw [hlen']; rfl⟩

/-! ### C5 -/

/-- C5 (amended): every date field persisted by an operation parses under
`"%Y-%m-%d"` — for add, given that today's date string is valid; for update,
given that the record's existing date was valid.  Add never persists
unparseable text: it substitutes today's date.  Update never persists
unparseable text either, but it falls back to the record's PREVIOUS date, not
the current date; in both cases the write still proceeds. -/
theorem persisted_date_valid :
    (∀ category item amountText dateText todayStr r,
      (parseDateStr todayStr).isSome = true →
      add_expense_record category item amountText dateText todayStr = some r →
      (parseDateStr r.date).isSome = true ∧
      (r.date = pyStrip dateText ∨ r.date = todayStr) ∧
      ((parseDateStr (pyStrip dateText)).isSome = false → r.date = todayStr)) ∧
    (∀ old inp r,
      (parseDateStr old.date).isSome = true →
      mergeUpdate old inp = some r →
      (parseDateStr r.date).isSome = true ∧
      (inp.date ≠ "" → (parseDateStr inp.date).isSome = false → r.date = old.date)) := by
  constructor
  · intro category item amountText dateText todayStr r htoday hadd
    unfold add_expense_record at hadd
    by_cases hrej : pyStrip category = "" ∨ pyStrip item = ""
    · rw [if_pos (by simpa using hrej)] at hadd
      exact absurd hadd (by simp)
    · rw [if_neg (by simpa using hrej)] at hadd
      have hr := (Option.some_inj.mp hadd).symm
      unfold _date_validation_helper at hr
      by_cases hv : (parseDateStr (pyStrip dateText)).isSome = true
      · rw [if_pos hv] at hr
        have hd : r.date = pyStrip dateText := by rw [hr]; rfl
        rw [hd]
        exact ⟨hv, Or.inl rfl, fun hc => absurd hv (by simp [hc])⟩
      · rw [if_neg hv] at hr
        have hd : r.date = todayStr := by rw [hr]; rfl
        rw [hd]
        exact ⟨htoday, Or.inr rfl, fun _ => rfl⟩
  · intro old inp r hold hupd
    unfold mergeUpdate at hupd
    rw [Option.map_eq_some'] at hupd
    obtain ⟨amt, -, hr⟩ := hupd
    unfold _date_validation_helper at hr
    by_cases hv : (parseDateStr (if inp.date = "" then old.date else inp.date)).isSome = true
    · rw [if_pos hv] at hr
      have hd : r.date = (if inp.date = "" then old.date else inp.date) := by rw [← hr]; rfl
      constructor
      · rw [hd]; exact hv
      · intro hne hinv
        rw [if_neg hne] at hd hv
        exact absurd hv (by simp [hinv])
    · rw [if_neg hv] at hr
      have hd : r.date = old.date := by rw [← hr]; rfl
      rw [hd]
      exact ⟨hold, fun _ _ => rfl⟩

/-- Witness for C5: adding with the unparseable date text `"Today"` on
2025-10-12 persists today's date, which is valid. -/
theorem persisted_date_valid_witness :
    (parseDateStr ((⟨"Food", "tea", mkRat 20 1, "2025-10-12"⟩ : Record).date)).isSome = true ∧
    ((⟨"Food", "tea", mkRat 20 1, "2025-10-12"⟩ : Record).date = pyStrip "Today" ∨
     (⟨"Food", "tea", mkRat 20 1, "2025-10-12"⟩ : Record).date = "2025-10-12") :=
  ⟨(persisted_date_valid.1 "Food" "tea" "20" "Today" "2025-10-12"
      ⟨"Food", "tea", mkRat 20 1, "2025-10-12"⟩ (by decide) (by decide)).1,
   (persisted_date_valid.1 "Food" "tea" "20" "Today" "2025-10-12"
      ⟨"Food", "tea", mkRat 20 1, "2025-10-12"⟩ (by decide) (by decide)).2.1⟩

/-- Counterexample to C5 as stated: an update whose date text `"not-a-date"`
fails to parse does NOT substitute the current date — `update_expense` never
consults the clock — it keeps the record's previous date `"2020-01-01"`.  So
on any day other than 2020-01-01 (for instance 2025-10-12) the persisted date
differs from the current date at the moment of entry. -/
theorem update_invalid_date_cex :
    update_expense (some [jsonDumps ⟨"Food", "tea", 5, "2020-01-01"⟩]) 1
        ⟨"", "", "", "not-a-date"⟩ =
      some [jsonDumps ⟨"Food", "tea", 5, "2020-01-01"⟩] ∧
    _date_validation_helper "not-a-date" = none ∧
    ("2020-01-01" : String) ≠ "2025-10-12" := by
  exact ⟨by decide, by decide, by decide⟩

/-! ### C6 -/

theorem pyAddAmount_nonneg (cs : List Char) : 0 ≤ pyAddAmount cs := by
  unfold pyAddAmount
  split
  · show 0 ≤ parseUnsignedDecimal cs
    unfold parseUnsignedDecimal
    split
    · exact Rat.mkRat_nonneg (Int.natCast_nonneg _) _
    · exact Rat.mkRat_nonneg (Int.natCast_nonneg _) _
  · exact le_refl (0 : ℚ)

/-- C6 (amended): every record persisted by ADD has a non-negative amount (the
digit check admits only unsigned decimals, and anything else is replaced by
0.0).  An UPDATE, however, persists whatever value `float(text)` yields — the
old amount when the field is left blank — with no sign check, so a negative
amount text is persisted as a negative amount. -/
theorem persisted_amount_nonneg :
    (∀ category item amountText dateText todayStr r,
      add_expense_record category item amountText dateText todayStr = some r →
      0 ≤ r.amount) ∧
    (∀ old inp r, mergeUpdate old inp = some r →
      r.amount = old.amount ∨ pyFloat inp.amount = some r.amount) := by
  constructor
  · intro category item amountText dateText todayStr r hadd
    unfold add_expense_record at hadd
    by_cases hrej : pyStrip category = "" ∨ pyStrip item = ""
    · rw [if_pos (by simpa using hrej)] at hadd
      exact absurd hadd (by simp)
    · rw [if_neg (by simpa using hrej)] at hadd
      have hr := (Option.some_inj.mp hadd).symm
      have ha : r.amount =
          pyAddAmount (if (myTrim amountText.data).isEmpty = true then "0".data
            else myTrim amountText.data) := by rw [hr]
      rw [ha]
      exact pyAddAmount_nonneg _
  · intro old inp r hupd
    unfold mergeUpdate at hupd
    rw [Option.map_eq_some'] at hupd
    obtain ⟨amt, hamt, hr⟩ := hupd
    have hra : r.amount = amt := by rw [← hr]
    by_cases hb : inp.amount = ""
    · rw [if_pos hb] at hamt
      exact Or.inl (by rw [hra, ← Option.some_inj.mp hamt])
    · rw [if_neg hb] at hamt
      exact Or.inr (by rw [hra, hamt])

/-- Witness for C6: an added record's amount is non-negative. -/
theorem persisted_amount_nonneg_witness :
    0 ≤ (⟨"Food", "tea", mkRat 20 1, "2025-10-12"⟩ : Record).amount :=
  persisted_amount_nonneg.1 "Food" "tea" "20" "Today" "2025-10-12"
    ⟨"Food", "tea", mkRat 20 1, "2025-10-12"⟩ (by decide)

/-- Counterexample to C6 as stated: updating a record's amount with the text
`"-5"` persists the amount `-5`, which is negative — `update_expense` applies
`float` with no sign check. -/
theorem update_negative_amount_cex :
    update_expense (some [jsonDumps ⟨"Food", "tea", 5, "2020-01-01"⟩]) 1
        ⟨"", "", "-5", ""⟩ =
      some [jsonDumps ⟨"Food", "tea", mkRat (-5) 1, "2020-01-01"⟩] ∧
    jsonLoads (jsonDumps ⟨"Food", "tea", mkRat (-5) 1, "2020-01-01"⟩) =
      some ⟨"Food", "tea", mkRat (-5) 1, "2020-01-01"⟩ ∧
    mkRat (-5) 1 < 0 := by
  refine ⟨by decide, by decide, by norm_num [Rat.mkRat_eq_div]⟩

/-! ### C10 -/

theorem lookupB_nil (k : MKey) : lookupB [] k = [] := by
  unfold lookupB
  rfl

theorem lookupB_cons_pos (k'' : MKey) (es : List Record)
    (rest : List (MKey × List Record)) (k : MKey) (h : k'' = k) :
    lookupB ((k'', es) :: rest) k = es := by
  unfold lookupB
  rw [List.find?_cons_of_pos _ (by simp [h])]

theorem lookupB_cons_neg (k'' : MKey) (es : List Record)
    (rest : List (MKey × List Record)) (k : MKey) (h : ¬ k'' = k) :
    lookupB ((k'', es) :: rest) k = lookupB rest k := by
  unfold lookupB
  rw [List.find?_cons_of_neg _ (by simp [h])]

theorem lookupB_bucketAdd (m : List (MKey × List Record)) (k' : MKey) (e : Record)
    (k : MKey) :
    lookupB (bucketAdd m k' e) k = lookupB m k ++ (if k' = k then [e] else []) := by
  induction m with
  | nil =>
    show lookupB [(k', [e])] k = lookupB [] k ++ _
    rw [lookupB_nil]
    by_cases h : k' = k
    · rw [lookupB_cons_pos _ _ _ _ h, if_pos h]
      rfl
    · rw [lookupB_cons_neg _ _ _ _ h, if_neg h, lookupB_nil]
      rfl
  | cons p rest ih =>
    obtain ⟨k'', es⟩ := p
    show lookupB (if k'' = k' then (k'', es ++ [e]) :: rest
      else (k'', es) :: bucketAdd rest k' e) k = _
    by_cases h1 : k'' = k'
    · rw [if_pos h1]
      by_cases h2 : k'' = k
      · rw [lookupB_cons_pos _ _ _ _ h2, lookupB_cons_pos _ _ _ _ h2,
          if_pos (h1 ▸ h2)]
      · rw [lookupB_cons_neg _ _ _ _ h2, lookupB_cons_neg _ _ _ _ h2,
          if_neg (fun hc => h2 (h1.trans hc)), List.append_nil]
    · rw [if_neg h1]
      by_cases h2 : k'' = k
      · rw [lookupB_cons_pos _ _ _ _ h2, lookupB_cons_pos _ _ _ _ h2,
          if_neg (fun hc => h1 (h2.trans hc.symm)), List.append_nil]
      · rw [lookupB_cons_neg _ _ _ _ h2, lookupB_cons_neg _ _ _ _ h2, ih]

theorem lookupB_foldl (l : List Record) :
    ∀ (m : List (MKey × List Record)) (k : MKey),
      lookupB (l.foldl (fun m e => bucketAdd m (monthKeyOf (dateOf e)) e) m) k =
        lookupB m k ++ l.filter (fun e => decide (monthKeyOf (dateOf e) = k)) := by
  induction l with
  | nil =>
    intro m k
    simp
  | cons e l' ih =>
    intro m k
    rw [List.foldl_cons, ih, lookupB_bucketAdd, List.filter_cons]
    by_cases h : monthKeyOf (dateOf e) = k
    · simp [h]
    · simp [h]

theorem lookupB_buildMonthly (l : List Record) (k : MKey) :
    lookupB (buildMonthly l) k =
      l.filter (fun e => decide (monthKeyOf (dateOf e) = k)) := by
  unfold buildMonthly
  rw [lookupB_foldl, lookupB_nil, List.nil_append]

theorem exists_key_bucketAdd (q : MKey → Bool) (m : List (MKey × List Record))
    (k' : MKey) (e : Record) :
    (∃ p ∈ bucketAdd m k' e, q p.1 = true) ↔
      (∃ p ∈ m, q p.1 = true) ∨ q k' = true := by
  induction m with
  | nil => simp [bucketAdd]
  | cons p rest ih =>
    obtain ⟨k'', es⟩ := p
    show (∃ p ∈ (if k'' = k' then (k'', es ++ [e]) :: rest
      else (k'', es) :: bucketAdd rest k' e), q p.1 = true) ↔ _
    by_cases h1 : k'' = k'
    · rw [if_pos h1]
      subst h1
      constructor
      · rintro ⟨p, hp, hq⟩
        rcases List.mem_cons.mp hp with rfl | hp
        · exact Or.inr hq
        · exact Or.inl ⟨p, List.mem_cons_of_mem _ hp, hq⟩
      · rintro (⟨p, hp, hq⟩ | hq)
        · rcases List.mem_cons.mp hp with rfl | hp
          · exact ⟨(k'', es ++ [e]), List.mem_cons_self _ _, hq⟩
          · exact ⟨p, List.mem_cons_of_mem _ hp, hq⟩
        · exact ⟨(k'', es ++ [e]), List.mem_cons_self _ _, hq⟩
    · rw [if_neg h1]
      constructor
      · rintro ⟨p, hp, hq⟩
        rcases List.mem_cons.mp hp with rfl | hp
        · exact Or.inl ⟨(k'', es), List.mem_cons_self _ _, hq⟩
        · rcases ih.mp ⟨p, hp, hq⟩ with ⟨p', hp', hq'⟩ | hq'
          · exact Or.inl ⟨p', List.mem_cons_of_mem _ hp', hq'⟩
          · exact Or.inr hq'
      · rintro (⟨p, hp, hq⟩ | hq)
        · rcases List.mem_cons.mp hp with rfl | hp
          · exact ⟨(k'', es), List.mem_cons_self _ _, hq⟩
          · rcases ih.mpr (Or.inl ⟨p, hp, hq⟩) with ⟨p', hp', hq'⟩
            exact ⟨p', List.mem_cons_of_mem _ hp', hq'⟩
        · rcases ih.mpr (Or.inr hq) with ⟨p', hp', hq'⟩
          exact ⟨p', List.mem_cons_of_mem _ hp', hq'⟩

theorem exists_key_foldl (q : MKey → Bool) (l : List Record) :
    ∀ m : List (MKey × List Record),
      (∃ p ∈ l.foldl (fun m e => bucketAdd m (monthKeyOf (dateOf e)) e) m, q p.1 = true) ↔
        (∃ p ∈ m, q p.1 = true) ∨ ∃ e ∈ l, q (monthKeyOf (dateOf e)) = true := by
  induction l with
  | nil =>
    intro m
    simp
  | cons e l' ih =>
    intro m
    rw [List.foldl_cons, ih, exists_key_bucketAdd]
    constructor
    · rintro (((hm | hk) | hl'))
      · exact Or.inl hm
      · exact Or.inr ⟨e, List.mem_cons_self _ _, hk⟩
      · obtain ⟨e', he', hq'⟩ := hl'
        exact Or.inr ⟨e', List.mem_cons_of_mem _ he', hq'⟩
    · rintro (hm | ⟨e', he', hq'⟩)
      · exact Or.inl (Or.inl hm)
      · rcases List.mem_cons.mp he' with rfl | he'
        · exact Or.inl (Or.inr hq')
        · exact Or.inr ⟨e', he', hq'⟩

theorem exists_key_buildMonthly (q : MKey → Bool) (l : List Record) :
    (∃ p ∈ buildMonthly l, q p.1 = true) ↔
      ∃ e ∈ l, q (monthKeyOf (dateOf e)) = true := by
  unfold buildMonthly
  rw [exists_key_foldl]
  simp

/-- The record-level match of a monthly query: calendar year `y` and month
number `mo` of the stored date. -/
def monthlyPred (y mo : Int) (e : Record) : Bool :=
  decide (((dateOf e).year : Int) = y) && decide (((dateOf e).month : Int) = mo)

/-- C10: for every year and month selector that normalizes (number or name),
the monthly report returns the key and record sequence of the unique bucket
with that year and month number — exactly the loaded records of that calendar
year and month, in date-descending order — or a "not found" key (with an empty
sequence) exactly when no loaded record has that year and month; a returned
key carries the queried year, the normalized month number and that month's
name. -/
theorem monthly_report_spec (y mo : Int) (m : Int ⊕ String) (file : Option (List String))
    (recs : List Record)
    (hnorm : _month_normalizer_helper m = some mo)
    (hload : _loading_data_helper file = some recs)
    (hvalid : allDatesValid recs = true) :
    ∃ key l, _monthly_report_generator y m file = some (key, l) ∧
      l.Perm (recs.filter (monthlyPred y mo)) ∧
      l.Pairwise dateDesc ∧
      (key = none ↔ recs.filter (monthlyPred y mo) = []) ∧
      (∀ k, key = some k → (k.1 : Int) = y ∧ (k.2.1 : Int) = mo ∧
        k.2.2 = monthName k.2.1) := by
  have hperm := List.perm_insertionSort dateDesc recs
  have hgen : _monthly_report_generator y m file =
      some (((buildMonthly (_date_based_sorting_helper recs)).map Prod.fst).find?
          (monthCond y mo),
        match ((buildMonthly (_date_based_sorting_helper recs)).map Prod.fst).find?
          (monthCond y mo) with
        | some k => lookupB (buildMonthly (_date_based_sorting_helper recs)) k
        | none => []) := by
    unfold _monthly_report_generator
    rw [hload]
    simp only [Option.bind_eq_bind, Option.some_bind, hvalid, if_pos]
    rw [hnorm]
    rfl
  cases hfind : ((buildMonthly (_date_based_sorting_helper recs)).map Prod.fst).find?
      (monthCond y mo) with
  | none =>
    have hfilter : (_date_based_sorting_helper recs).filter (monthlyPred y mo) = [] := by
      rw [List.filter_eq_nil_iff]
      intro e he hpe
      have hex : ∃ p ∈ buildMonthly (_date_based_sorting_helper recs),
          monthCond y mo p.1 = true :=
        (exists_key_buildMonthly (monthCond y mo) _).mpr ⟨e, he, hpe⟩
      obtain ⟨p, hp, hq⟩ := hex
      have := List.find?_eq_none.mp hfind p.1 (List.mem_map_of_mem _ hp)
      exact absurd hq this
    have hrecfilter : recs.filter (monthlyPred y mo) = [] := by
      have hp2 : (recs.filter (monthlyPred y mo)).Perm
          ((_date_based_sorting_helper recs).filter (monthlyPred y mo)) :=
        (List.Perm.filter _ hperm).symm
      rw [hfilter] at hp2
      exact hp2.eq_nil
    refine ⟨none, [], ?_, ?_, ?_, ?_, ?_⟩
    · rw [hfind] at hgen
      exact hgen
    · rw [hrecfilter]
    · exact List.Pairwise.nil
    · exact iff_of_true rfl hrecfilter
    · intro k hk
      cases hk
  | some k =>
    obtain ⟨k1, k2, k3⟩ := k
    have hcond : monthCond y mo (k1, k2, k3) = true := List.find?_some hfind
    have hcond' := hcond
    unfold monthCond at hcond'
    rw [Bool.and_eq_true, decide_eq_true_eq, decide_eq_true_eq] at hcond'
    obtain ⟨hy, hmo⟩ := hcond'
    have hkmem : (k1, k2, k3) ∈ (buildMonthly (_date_based_sorting_helper recs)).map
        Prod.fst := List.mem_of_find?_eq_some hfind
    obtain ⟨p, hp, hpk⟩ := List.mem_map.mp hkmem
    have hsh : ∃ e ∈ _date_based_sorting_helper recs,
        monthKeyOf (dateOf e) = (k1, k2, k3) := by
      have hex : ∃ p' ∈ buildMonthly (_date_based_sorting_helper recs),
          decide (p'.1 = (k1, k2, k3)) = true := ⟨p, hp, by simp [hpk]⟩
      obtain ⟨e, he, hq⟩ :=
        (exists_key_buildMonthly (fun k' => decide (k' = (k1, k2, k3))) _).mp hex
      exact ⟨e, he, of_decide_eq_true hq⟩
    obtain ⟨e0, he0, hk0⟩ := hsh
    have hshape : k3 = monthName k2 := by
      have h1 : (monthKeyOf (dateOf e0)).2.2 = k3 := by rw [hk0]
      have h2 : (monthKeyOf (dateOf e0)).2.1 = k2 := by rw [hk0]
      rw [← h1, ← h2]
      rfl
    have hfc : ∀ e' ∈ _date_based_sorting_helper recs,
        decide (monthKeyOf (dateOf e') = (k1, k2, k3)) = monthlyPred y mo e' := by
      intro e' _
      have hiff : (monthKeyOf (dateOf e') = (k1, k2, k3)) ↔
          ((((dateOf e').year : Int) = y) ∧ (((dateOf e').month : Int) = mo)) := by
        constructor
        · intro hk'
          have e1 : (dateOf e').year = k1 := congrArg (fun t => t.1) hk'
          have e2 : (dateOf e').month = k2 := congrArg (fun t => t.2.1) hk'
          exact ⟨by rw [e1]; exact hy, by rw [e2]; exact hmo⟩
        · rintro ⟨h1, h2⟩
          have e1 : (dateOf e').year = k1 := by
            have : ((dateOf e').year : Int) = (k1 : Int) := by rw [h1, hy]
            exact_mod_cast this
          have e2 : (dateOf e').month = k2 := by
            have : ((dateOf e').month : Int) = (k2 : Int) := by rw [h2, hmo]
            exact_mod_cast this
          show ((dateOf e').year, (dateOf e').month, monthName (dateOf e').month) =
            (k1, k2, k3)
          rw [e1, e2, hshape]
      unfold monthlyPred
      by_cases h1 : ((dateOf e').year : Int) = y <;>
        by_cases h2 : ((dateOf e').month : Int) = mo <;>
        simp [h1, h2, hiff]
    have hl : lookupB (buildMonthly (_date_based_sorting_helper recs)) (k1, k2, k3) =
        (_date_based_sorting_helper recs).filter (monthlyPred y mo) := by
      rw [lookupB_buildMonthly]
      exact List.filter_congr hfc
    refine ⟨some (k1, k2, k3),
      lookupB (buildMonthly (_date_based_sorting_helper recs)) (k1, k2, k3),
      ?_, ?_, ?_, ?_, ?_⟩
    · rw [hfind] at hgen
      exact hgen
    · rw [hl]
      exact hperm.filter _
    · rw [hl]
      exact List.Pairwise.sublist (List.filter_sublist _)
        (List.sorted_insertionSort dateDesc recs)
    · refine iff_of_false (by simp) ?_
      intro hnil
      have he0r : e0 ∈ recs := hperm.mem_iff.mp he0
      have hpe0 : monthlyPred y mo e0 = true := by
        have hc : monthCond y mo (monthKeyOf (dateOf e0)) = true := by
          rw [hk0]
          exact hcond
        exact hc
      have hmem : e0 ∈ recs.filter (monthlyPred y mo) :=
        List.mem_filter.mpr ⟨he0r, hpe0⟩
      rw [hnil] at hmem
      exact absurd hmem (List.not_mem_nil _)
    · intro k' hk'
      cases hk'
      exact ⟨hy, hmo, hshape⟩

/-- Witness for C10, the specification's scenario: records dated 2024-01-05
(amount 20), 2024-01-20 (amount 30), 2024-02-01 (amount 10); the monthly
report for (2024, "January") returns exactly the two January records. -/
theorem monthly_report_spec_witness :
    ∃ key l, _monthly_report_generator 2024 (.inr "January")
        (some [jsonDumps ⟨"A", "a", 20, "2024-01-05"⟩,
               jsonDumps ⟨"B", "b", 30, "2024-01-20"⟩,
               jsonDumps ⟨"C", "c", 10, "2024-02-01"⟩]) = some (key, l) ∧
      l.Perm ([⟨"A", "a", 20, "2024-01-05"⟩, ⟨"B", "b", 30, "2024-01-20"⟩,
               ⟨"C", "c", 10, "2024-02-01"⟩].filter (monthlyPred 2024 1)) ∧
      l.Pairwise dateDesc ∧
      (key = none ↔
        [⟨"A", "a", 20, "2024-01-05"⟩, ⟨"B", "b", 30, "2024-01-20"⟩,
         ⟨"C", "c", 10, "2024-02-01"⟩].filter (monthlyPred 2024 1) = []) ∧
      (∀ k, key = some k → (k.1 : Int) = 2024 ∧ (k.2.1 : Int) = 1 ∧
        k.2.2 = monthName k.2.1) :=
  monthly_report_spec 2024 1 (.inr "January") _
    [⟨"A", "a", 20, "2024-01-05"⟩, ⟨"B", "b", 30, "2024-01-20"⟩,
     ⟨"C", "c", 10, "2024-02-01"⟩]
    (by decide) (by decide) (by decide)

end ExpenseTracker
